import Mathlib

/-
Verification of the Iden-Hide batch-orchestration layer.

Shallow embedding of the JavaScript batch-processing code:
  - apiService.processBatch           (detection-app/src/services/apiService.js)
  - FolderProcessor.processFolder     (sequential, parallel and fallback paths)
  - downloadWithRetry                 (exponential-backoff artifact fetch)
  - downloadZip                       (archive packaging)

Asynchronous API calls are modelled by environment functions that give
the outcome of each call (detect, blur, batch submission, artifact fetch)
per item index; the orchestration control flow is translated directly
from the source loops.
-/

set_option autoImplicit false

namespace IdenHide

/-- An input image file as selected in the UI: its name and (abstract) byte
content.  Mirrors the fields of a JS File object that the orchestration
code actually reads. -/
structure JsFile where
  name : String
  bytes : Nat
deriving DecidableEq

/-- The value returned by every apiService call: either
the JS object with success true and a data payload, or success false
with an error message (apiService catches all exceptions and converts
them into this shape). -/
inductive ApiResult (α : Type) where
  | ok (data : α)
  | err (msg : String)
deriving DecidableEq

/-- Whether an ApiResult has success set to true. -/
def ApiResult.isOk {α : Type} : ApiResult α → Bool
  | .ok _ => true
  | .err _ => false

/-- The data payload of a successful blurObjects call: an abstract payload
id plus the optional blurred_image_path field that downloadZip reads. -/
structure BlurData where
  payload : Nat
  blurred_image_path : Option String
deriving DecidableEq

/- ---------------------------------------------------------------------
downloadWithRetry (src/unnamed/part_000, lines 1240-1271 and 1759-1790):

  for (let attempt = 1; attempt <= maxRetries; attempt++) {
    try {
      const result = await apiService.downloadImage(filename);
      if (result.success) return result;
      if (attempt === maxRetries) return result;
      const delay = Math.pow(2, attempt) * 1000;
      await sleep(delay);
    } catch (error) {
      if (attempt === maxRetries) return { success: false, error: error.message };
      const delay = Math.pow(2, attempt) * 1000;
      await sleep(delay);
    }
  }
--------------------------------------------------------------------- -/

/-- The value of one apiService.downloadImage call as observed by
downloadWithRetry: the success flag, the data payload (0 when absent)
and the error message (empty when absent). -/
structure DlResponse where
  success : Bool
  data : Nat
  error : String
deriving DecidableEq

/-- The outcome of one downloadImage attempt: either the returned
response object, or a thrown exception carrying a message. -/
inductive DlOutcome where
  | res (r : DlResponse)
  | thrown (msg : String)
deriving DecidableEq

/-- The observable run of downloadWithRetry: how many fetch attempts were
made, the backoff delays (in milliseconds, in order, one before each
retry attempt), and the returned value — none models the JS function
falling off the end of the loop and returning undefined. -/
structure RetryRun where
  attempts : Nat
  delays : List Nat
  result : Option DlResponse
deriving DecidableEq

/-- The retry loop of downloadWithRetry, fuel-indexed translation of the
for loop; the environment gives the outcome of the fetch at each attempt
number (1-based).  Rules translated one-for-one from the source: return
the first success; at attempt = maxRetries return the last response
untouched (or wrap a thrown message); otherwise sleep 2 ^ attempt * 1000
milliseconds and move to the next attempt. -/
def downloadWithRetryGo (env : Nat → DlOutcome) (maxRetries : Nat) :
    Nat → Nat → RetryRun
  | _, 0 => ⟨0, [], none⟩
  | attempt, fuel + 1 =>
    if maxRetries < attempt then ⟨0, [], none⟩
    else
      match env attempt with
      | .res r =>
        if r.success then ⟨1, [], some r⟩
        else if attempt = maxRetries then ⟨1, [], some r⟩
        else
          let rest := downloadWithRetryGo env maxRetries (attempt + 1) fuel
          ⟨rest.attempts + 1, 2 ^ attempt * 1000 :: rest.delays, rest.result⟩
      | .thrown m =>
        if attempt = maxRetries then ⟨1, [], some ⟨false, 0, m⟩⟩
        else
          let rest := downloadWithRetryGo env maxRetries (attempt + 1) fuel
          ⟨rest.attempts + 1, 2 ^ attempt * 1000 :: rest.delays, rest.result⟩

/-- downloadWithRetry: run the loop from attempt 1; the loop body executes
at most maxRetries times, so maxRetries is sufficient fuel. -/
def downloadWithRetry (env : Nat → DlOutcome) (maxRetries : Nat) : RetryRun :=
  downloadWithRetryGo env maxRetries 1 maxRetries

/-- An environment in which the three attempts of a maxRetries = 3 run
observe the given three outcomes. -/
def env3 (o1 o2 o3 : DlOutcome) : Nat → DlOutcome :=
  fun k => if k = 1 then o1 else if k = 2 then o2 else o3

/-- Invariants of the retry loop started anywhere inside its range: at
least one attempt happens, at most fuel attempts happen, the delay
before retry attempt k is 2 ^ (k - 1) * 1000 milliseconds, and a value
is returned. -/
theorem downloadWithRetryGo_spec (env : Nat → DlOutcome) (M : Nat) :
    ∀ fuel attempt, 1 ≤ fuel → attempt + fuel = M + 1 →
      1 ≤ (downloadWithRetryGo env M attempt fuel).attempts ∧
      (downloadWithRetryGo env M attempt fuel).attempts ≤ fuel ∧
      (downloadWithRetryGo env M attempt fuel).delays =
        (List.range' attempt ((downloadWithRetryGo env M attempt fuel).attempts - 1)).map
          (fun j => 2 ^ j * 1000) ∧
      (downloadWithRetryGo env M attempt fuel).result.isSome = true := by
  intro fuel
  induction fuel with
  | zero => intro attempt h1 _; omega
  | succ f ih =>
    intro attempt _ hsum
    have hguard : ¬ M < attempt := by omega
    simp only [downloadWithRetryGo, if_neg hguard]
    cases henv : env attempt with
    | res r =>
      cases hs : r.success with
      | true => simp [hs]
      | false =>
        by_cases hM : attempt = M
        · simp [hs, hM]
        · have hf : 1 ≤ f := by omega
          have hrec := ih (attempt + 1) hf (by omega)
          simp only [hs, if_neg hM, Bool.false_eq_true, if_false]
          obtain ⟨ha1, ha2, hd, hr⟩ := hrec
          refine ⟨by omega, by omega, ?_, hr⟩
          obtain ⟨m, hm⟩ := Nat.exists_eq_add_of_le ha1
          rw [hd, hm]
          have e1 : 1 + m - 1 = m := by omega
          have e2 : 1 + m + 1 - 1 = m + 1 := by omega
          rw [e1, e2, List.range'_succ]
          simp
    | thrown m =>
      by_cases hM : attempt = M
      · simp [hM]
      · have hf : 1 ≤ f := by omega
        have hrec := ih (attempt + 1) hf (by omega)
        simp only [if_neg hM]
        obtain ⟨ha1, ha2, hd, hr⟩ := hrec
        refine ⟨by omega, by omega, ?_, hr⟩
        obtain ⟨k, hk⟩ := Nat.exists_eq_add_of_le ha1
        rw [hd, hk]
        have e1 : 1 + k - 1 = k := by omega
        have e2 : 1 + k + 1 - 1 = k + 1 := by omega
        rw [e1, e2, List.range'_succ]
        simp

/- ---------------------------------------------------------------------
apiService.processBatch (detection-app/src/services/apiService.js,
lines 165-215): one sequential loop over the files; on detection
success pushes {filename, detection, blur (when enableBlur, or null),
success: true}; on detection failure pushes {filename, error,
success: false}; finally returns { success: true, data: results }.
--------------------------------------------------------------------- -/

/-- The processing options handed to processBatch; only enableBlur
influences the control flow that is modelled (the detect flags and blur
strengths are forwarded to the environment calls unchanged). -/
structure BatchOptions where
  detectFace : Bool
  detectLicensePlate : Bool
  enableBlur : Bool
deriving DecidableEq

/-- One entry of the results array built by processBatch. -/
structure BatchItemResult where
  filename : String
  detection : Option Nat
  blur : Option BlurData
  error : Option String
  success : Bool
deriving DecidableEq

/-- The value processBatch resolves with. -/
structure BatchResponse where
  success : Bool
  data : List BatchItemResult
deriving DecidableEq

/-- The body of the processBatch loop for the file at index i, given the
outcomes of the detectObjects and blurObjects calls per index.  A failed
blur call leaves blur null but still marks the item success: true,
exactly as blurResult?.data || null does in the source. -/
def processBatchItem (opts : BatchOptions) (denv : Nat → ApiResult Nat)
    (benv : Nat → ApiResult BlurData) (i : Nat) (f : JsFile) : BatchItemResult :=
  match denv i with
  | .ok d =>
    let blur : Option BlurData :=
      if opts.enableBlur then
        match benv i with
        | .ok b => some b
        | .err _ => none
      else none
    ⟨f.name, some d, blur, none, true⟩
  | .err e => ⟨f.name, none, none, some e, false⟩

/-- The processBatch loop, walking the file list while counting the
index. -/
def processBatchGo (opts : BatchOptions) (denv : Nat → ApiResult Nat)
    (benv : Nat → ApiResult BlurData) : Nat → List JsFile → List BatchItemResult
  | _, [] => []
  | i, f :: fs =>
    processBatchItem opts denv benv i f :: processBatchGo opts denv benv (i + 1) fs

/-- apiService.processBatch: run the loop over all files and resolve with
success: true unconditionally. -/
def processBatch (files : List JsFile) (opts : BatchOptions)
    (denv : Nat → ApiResult Nat) (benv : Nat → ApiResult BlurData) : BatchResponse :=
  ⟨true, processBatchGo opts denv benv 0 files⟩

/- ---------------------------------------------------------------------
FolderProcessor.processFolder (src/unnamed/part_002 lines 347-546 and
detection-app/src/components/FolderProcessor.js lines 303-376).

Sequential loop (also the fallback loop after a parallel failure):

  for (let i = 0; i < selectedFiles.length; i++) {
    onProgressUpdate(i + 1, selectedFiles.length);
    try {
      const detectionResult = await apiService.detectObjects(file, true, true);
      if (!detectionResult.success) throw new Error(detectionResult.error);
      const blurResult = await apiService.blurObjects(file, true, true, 25, 20);
      if (!blurResult.success) throw new Error(blurResult.error);
      processedResults.push({filename, file, detection, blurred, ...});
    } catch (error) { console.error(...); toast.error(...); }
  }

Parallel branch: one processBatchParallel call; on success the results
array of the response is mapped in its own order into records (looking
the file handle up by name) and onProgressUpdate(N, N) fires once; on
failure the sequential fallback loop above runs from index 0.
--------------------------------------------------------------------- -/

/-- One record of the processedResults array built by processFolder: the
filename, the stored file handle (present in the sequential loop; in the
parallel branch the result of looking the name up in selectedFiles,
which can miss), the detection payload and the blur payload. -/
structure FolderRecord where
  filename : String
  fileRef : Option JsFile
  detection : Nat
  blurred : BlurData
deriving DecidableEq

/-- The observable calls processFolder makes on its callbacks: an
onProgressUpdate(processed, total) invocation, or the settling of the
item at an index (its try/catch block finishing, ok meaning a record was
pushed). -/
inductive ProgressEvent where
  | progress (processed total : Nat)
  | settle (index : Nat) (ok : Bool)
deriving DecidableEq

/-- The accumulation step of the processFolder loops:
processedResults.push(record) appends the new record at the end
(part_002 lines 459-467 and 515-523, FolderProcessor.js lines 352-357).
This is the record operation of the result aggregation: it is a plain
append, keyed by nothing. -/
def recordOutcome (acc : List FolderRecord) (r : FolderRecord) : List FolderRecord :=
  acc ++ [r]

/-- The sequential processFolder loop from index i, fuel-indexed; each
iteration first reports progress (i + 1, N), then runs detect and blur
through the environments, pushing a record only when both succeed — a
failed item only logs and settles without a record. -/
def processSeqGo (files : List JsFile) (denv : Nat → ApiResult Nat)
    (benv : Nat → ApiResult BlurData) :
    Nat → Nat → List FolderRecord × List ProgressEvent
  | _, 0 => ([], [])
  | i, fuel + 1 =>
    match files[i]? with
    | none => ([], [])
    | some f =>
      let rest := processSeqGo files denv benv (i + 1) fuel
      match denv i with
      | .err _ =>
        (rest.1, ProgressEvent.progress (i + 1) files.length ::
          ProgressEvent.settle i false :: rest.2)
      | .ok d =>
        match benv i with
        | .err _ =>
          (rest.1, ProgressEvent.progress (i + 1) files.length ::
            ProgressEvent.settle i false :: rest.2)
        | .ok b =>
          (⟨f.name, some f, d, b⟩ :: rest.1,
            ProgressEvent.progress (i + 1) files.length ::
              ProgressEvent.settle i true :: rest.2)

/-- The sequential branch of processFolder over the whole selection. -/
def processSeq (files : List JsFile) (denv : Nat → ApiResult Nat)
    (benv : Nat → ApiResult BlurData) : List FolderRecord × List ProgressEvent :=
  processSeqGo files denv benv 0 files.length

/-- One element of the results array of a successful
processBatchParallel response. -/
structure ParallelItem where
  filename : String
  detection : Nat
  blur : BlurData
deriving DecidableEq

/-- The conversion applied to each parallel response item:
selectedFiles.find(f => f.name === result.filename) for the stored file
handle, detection and blur taken from the response entry. -/
def convertParallel (files : List JsFile) (r : ParallelItem) : FolderRecord :=
  ⟨r.filename, files.find? (fun f => decide (f.name = r.filename)), r.detection, r.blur⟩

/-- The parallel branch of processFolder: when the initiating
processBatchParallel call succeeds, its results array is mapped in the
response order and a single onProgressUpdate(N, N) fires; when it fails,
the catch block falls back to the sequential loop from index 0 (at that
point processedResults is still empty, so the fallback output is the
whole sequential run). -/
def processFolderPar (files : List JsFile) (pres : ApiResult (List ParallelItem))
    (denv : Nat → ApiResult Nat) (benv : Nat → ApiResult BlurData) :
    List FolderRecord × List ProgressEvent :=
  match pres with
  | .ok rs =>
    (rs.map (convertParallel files),
      [ProgressEvent.progress files.length files.length])
  | .err _ => processSeqGo files denv benv 0 files.length

/-- What one iteration of the sequential loop contributes to
processedResults: a record exactly when the index is in range and both
calls succeed. -/
def seqStep (files : List JsFile) (denv : Nat → ApiResult Nat)
    (benv : Nat → ApiResult BlurData) (i : Nat) : Option FolderRecord :=
  match files[i]? with
  | none => none
  | some f =>
    match denv i, benv i with
    | .ok d, .ok b => some ⟨f.name, some f, d, b⟩
    | _, _ => none

/-- The number of indices whose detect and blur calls both succeed. -/
def succeededCount (files : List JsFile) (denv : Nat → ApiResult Nat)
    (benv : Nat → ApiResult BlurData) : Nat :=
  ((List.range files.length).filter (fun i => (denv i).isOk && (benv i).isOk)).length

theorem ApiResult.isOk_ok {α : Type} (d : α) : (ApiResult.ok d).isOk = true := rfl

theorem ApiResult.isOk_err {α : Type} (m : String) :
    (ApiResult.err m : ApiResult α).isOk = false := rfl

/-- Generic: the length of a filterMap counts the inputs mapped to
some. -/
theorem length_filterMap_eq_countP {α β : Type} (f : α → Option β) :
    ∀ l : List α, (l.filterMap f).length = l.countP (fun a => (f a).isSome) := by
  intro l
  induction l with
  | nil => rfl
  | cons a l ih =>
    cases hfa : f a <;>
      simp [List.filterMap_cons, List.countP_cons, hfa, ih]

/-- Generic: countP only depends on the predicate values on the list
members. -/
theorem countP_congr_mem {α : Type} (p q : α → Bool) :
    ∀ l : List α, (∀ a ∈ l, p a = q a) → l.countP p = l.countP q := by
  intro l
  induction l with
  | nil => intro _; rfl
  | cons a l ih =>
    intro h
    have ha := h a (by simp)
    simp [List.countP_cons, ha, ih (fun b hb => h b (by simp [hb]))]


/-- Generic: mapping over a filterMap yields a sublist of mapping the
original list, whenever the images agree where the filterMap keeps an
element. -/
theorem map_filterMap_sublist {α β γ : Type} (f : α → Option β) (g : α → γ) (h : β → γ)
    (hcomp : ∀ a r, f a = some r → h r = g a) :
    ∀ l : List α, ((l.filterMap f).map h).Sublist (l.map g) := by
  intro l
  induction l with
  | nil => simp
  | cons a l ih =>
    cases hfa : f a with
    | none => simpa [List.filterMap_cons, hfa] using ih.cons (g a)
    | some r =>
      simpa [List.filterMap_cons, hfa, hcomp a r hfa] using ih.cons₂ (g a)

/-- processBatch produces exactly one entry per input file. -/
theorem processBatchGo_length (opts : BatchOptions) (denv : Nat → ApiResult Nat)
    (benv : Nat → ApiResult BlurData) :
    ∀ (fs : List JsFile) (i : Nat), (processBatchGo opts denv benv i fs).length = fs.length := by
  intro fs
  induction fs with
  | nil => intro i; rfl
  | cons f fs ih => intro i; simp [processBatchGo, ih]

/-- The entry of processBatch at position k comes from the file at
position k, handled with index i + k. -/
theorem processBatchGo_get? (opts : BatchOptions) (denv : Nat → ApiResult Nat)
    (benv : Nat → ApiResult BlurData) :
    ∀ (fs : List JsFile) (i k : Nat),
      (processBatchGo opts denv benv i fs).get? k =
        (fs.get? k).map (fun f => processBatchItem opts denv benv (i + k) f) := by
  intro fs
  induction fs with
  | nil => intro i k; rfl
  | cons f fs ih =>
    intro i k
    cases k with
    | zero => rfl
    | succ k =>
      have := ih (i + 1) k
      simpa [processBatchGo, Nat.add_assoc, Nat.add_comm 1 k] using this

theorem processBatchItem_filename (opts : BatchOptions) (denv : Nat → ApiResult Nat)
    (benv : Nat → ApiResult BlurData) (j : Nat) (f : JsFile) :
    (processBatchItem opts denv benv j f).filename = f.name := by
  cases hd : denv j <;> simp [processBatchItem, hd]

theorem processBatchItem_success (opts : BatchOptions) (denv : Nat → ApiResult Nat)
    (benv : Nat → ApiResult BlurData) (j : Nat) (f : JsFile) :
    (processBatchItem opts denv benv j f).success = (denv j).isOk := by
  cases hd : denv j <;> simp [processBatchItem, hd, ApiResult.isOk]

theorem processBatchItem_error (opts : BatchOptions) (denv : Nat → ApiResult Nat)
    (benv : Nat → ApiResult BlurData) (j : Nat) (f : JsFile) :
    (processBatchItem opts denv benv j f).error =
      (match denv j with | .ok _ => none | .err e => some e) := by
  cases hd : denv j <;> simp [processBatchItem, hd]

/-- When every detectObjects call fails, every entry of the processBatch
results array is marked success: false. -/
theorem processBatchGo_all_failed (opts : BatchOptions) (e : String)
    (benv : Nat → ApiResult BlurData) :
    ∀ (fs : List JsFile) (i : Nat),
      (processBatchGo opts (fun _ => ApiResult.err e) benv i fs).all
        (fun r => !r.success) = true := by
  intro fs
  induction fs with
  | nil => intro i; rfl
  | cons f fs ih => intro i; simp [processBatchGo, processBatchItem, List.all_cons, ih]

/-- The records of the sequential loop from index i are the filterMap of
the per-index step over the remaining index range. -/
theorem processSeqGo_records (files : List JsFile) (denv : Nat → ApiResult Nat)
    (benv : Nat → ApiResult BlurData) :
    ∀ (fuel i : Nat), i + fuel = files.length →
      (processSeqGo files denv benv i fuel).1 =
        (List.range' i fuel).filterMap (seqStep files denv benv) := by
  intro fuel
  induction fuel with
  | zero => intro i _; rfl
  | succ fuel ih =>
    intro i hsum
    cases hfi : files[i]? with
    | none =>
      exfalso
      have := List.getElem?_eq_none_iff.mp hfi
      omega
    | some f =>
      have hrec := ih (i + 1) (by omega)
      rw [List.range'_succ, List.filterMap_cons]
      cases hd : denv i with
      | err m =>
        simp [processSeqGo, hfi, hd, seqStep, hrec]
      | ok d =>
        cases hb : benv i with
        | err m => simp [processSeqGo, hfi, hd, hb, seqStep, hrec]
        | ok b => simp [processSeqGo, hfi, hd, hb, seqStep, hrec]

/-- The callback trace of the sequential loop from index i: each index
contributes a progress report (i + 1, N) first and then settles, with a
record pushed exactly when both calls succeeded. -/
theorem processSeqGo_events (files : List JsFile) (denv : Nat → ApiResult Nat)
    (benv : Nat → ApiResult BlurData) :
    ∀ (fuel i : Nat), i + fuel = files.length →
      (processSeqGo files denv benv i fuel).2 =
        (List.range' i fuel).flatMap (fun k =>
          [ProgressEvent.progress (k + 1) files.length,
           ProgressEvent.settle k ((denv k).isOk && (benv k).isOk)]) := by
  intro fuel
  induction fuel with
  | zero => intro i _; rfl
  | succ fuel ih =>
    intro i hsum
    cases hfi : files[i]? with
    | none =>
      exfalso
      have := List.getElem?_eq_none_iff.mp hfi
      omega
    | some f =>
      have hrec := ih (i + 1) (by omega)
      rw [List.range'_succ, List.flatMap_cons]
      cases hd : denv i with
      | err m => simp [processSeqGo, hfi, hd, hrec, ApiResult.isOk]
      | ok d =>
        cases hb : benv i with
        | err m => simp [processSeqGo, hfi, hd, hb, hrec, ApiResult.isOk]
        | ok b => simp [processSeqGo, hfi, hd, hb, hrec, ApiResult.isOk]

/-- The records of the full sequential run as a filterMap over the index
range. -/
theorem processSeq_records (files : List JsFile) (denv : Nat → ApiResult Nat)
    (benv : Nat → ApiResult BlurData) :
    (processSeq files denv benv).1 =
      (List.range files.length).filterMap (seqStep files denv benv) := by
  rw [processSeq, processSeqGo_records files denv benv files.length 0 (by omega),
    List.range_eq_range']

/-- The sequential loop keeps a record exactly for the in-range indices
whose two calls succeed. -/
theorem seqStep_isSome (files : List JsFile) (denv : Nat → ApiResult Nat)
    (benv : Nat → ApiResult BlurData) (i : Nat) (hi : i < files.length) :
    (seqStep files denv benv i).isSome = ((denv i).isOk && (benv i).isOk) := by
  have hf : files[i]? = some files[i] := List.getElem?_eq_getElem hi
  cases hd : denv i <;> cases hb : benv i <;>
    simp [seqStep, hf, hd, hb, ApiResult.isOk]

/-- The number of records the sequential loop produces is the number of
fully-succeeded indices. -/
theorem processSeq_length (files : List JsFile) (denv : Nat → ApiResult Nat)
    (benv : Nat → ApiResult BlurData) :
    (processSeq files denv benv).1.length = succeededCount files denv benv := by
  rw [processSeq_records, length_filterMap_eq_countP, succeededCount,
    ← List.countP_eq_length_filter]
  exact countP_congr_mem _ _ _ (fun i hi =>
    seqStep_isSome files denv benv i (List.mem_range.mp hi))

/-- Every record of the sequential loop stores the file handle it was
built from, and carries that file's name. -/
theorem processSeq_record_shape (files : List JsFile) (denv : Nat → ApiResult Nat)
    (benv : Nat → ApiResult BlurData) :
    ∀ r ∈ (processSeq files denv benv).1,
      ∃ f, r.fileRef = some f ∧ r.filename = f.name := by
  intro r hr
  rw [processSeq_records] at hr
  obtain ⟨i, _, hstep⟩ := List.mem_filterMap.mp hr
  unfold seqStep at hstep
  cases hfi : files[i]? with
  | none => rw [hfi] at hstep; exact absurd hstep (by simp)
  | some f =>
    rw [hfi] at hstep
    cases hd : denv i <;> cases hb : benv i <;> rw [hd, hb] at hstep <;> simp at hstep
    subst hstep
    exact ⟨f, rfl, rfl⟩

/- ---------------------------------------------------------------------
downloadZip (detection-app/src/components/FolderProcessor.js lines
378-445 and src/unnamed/part_002 lines 548-615): two identical function
bodies.  On an empty results array it returns early with no archive;
otherwise it reads, from each element of results, the PROPERTIES
result.originalFile, result.detection, result.blur and
result.processedAt: it adds result.originalFile's bytes under the zip
folder originals/, then for every result whose result.blur carries a
blurred_image_path fetches /download/{last path segment} and on a 200
response adds the bytes under the zip folder blurred/, and finally
writes detection_results.json, an array with one entry per element of
results (originalFile.name, detection, blur, processedAt).

The two components write DIFFERENT properties onto their records:
detection-app's processFolder pushes { originalFile, detection, blur,
processedAt } (lines 352-357), matching what downloadZip reads, while
part_002's processFolder pushes { id, filename, file, preview,
detection, blurred, timestamp } (lines 459-467 and 515-523) — it has
no originalFile and no blur property.  So the per-record input of
downloadZip is modelled as the tuple of properties it reads, each
optional because a JS property read of an absent field yields
undefined; result.originalFile.arrayBuffer() on undefined throws, and
the outer catch turns that into no archive at all.
--------------------------------------------------------------------- -/

/-- The last slash-separated segment of a path, as in
blurred_image_path.split('/').pop(). -/
def lastSeg (p : String) : String :=
  (p.splitOn "/").getLastD ""

/-- The properties downloadZip reads from one element of results:
result.originalFile, result.detection and result.blur; originalFile
and blur are none when the record object carries no such property (as
on part_002's records, whose fields are named file and blurred). -/
structure ZipInput where
  originalFile : Option JsFile
  detection : Nat
  blur : Option BlurData
deriving DecidableEq

/-- The records of detection-app's processFolder, as downloadZip sees
them: that loop stores the processed file under originalFile and the
blur payload under blur (FolderProcessor.js lines 352-357), the same
file handle and blur data the sequential loop binds, so the properties
downloadZip reads are exactly the record's stored values. -/
def appZipInputs (rs : List FolderRecord) : List ZipInput :=
  rs.map (fun r => ⟨r.fileRef, r.detection, some r.blurred⟩)

/-- The records of part_002's processFolder, as downloadZip sees them:
that loop stores the file under the property file and the blur payload
under blurred (part_002 lines 459-467), so reading originalFile and
blur on such a record yields undefined. -/
def part002ZipInputs (rs : List FolderRecord) : List ZipInput :=
  rs.map (fun r => ⟨none, r.detection, none⟩)

/-- One file stored in the generated zip: its path inside the archive
and its (abstract) byte content. -/
structure ZipEntry where
  path : String
  content : Nat
deriving DecidableEq

/-- One element of the detection_results.json manifest: the original
filename, the detection payload and the (possibly absent) blur
payload.  The source object has no field for an error. -/
structure ManifestEntry where
  filename : String
  detection : Nat
  blur : Option BlurData
deriving DecidableEq

/-- The generated archive: the originals/ folder, the blurred/ folder
and the JSON manifest. -/
structure ZipArchive where
  originals : List ZipEntry
  blurred : List ZipEntry
  manifest : List ManifestEntry
deriving DecidableEq

/-- The originals/ folder: one entry per result, holding
result.originalFile's bytes. -/
def zipOriginals (rs : List ZipInput) : List ZipEntry :=
  rs.filterMap (fun r => r.originalFile.map (fun f => ⟨"originals/" ++ f.name, f.bytes⟩))

/-- The blurred/ folder: one entry per result whose result.blur is
present (the source reads it with optional chaining) and carries a
blurred_image_path, and whose fetch of the server artifact succeeds;
fetch failures are logged and skipped. -/
def zipBlurred (rs : List ZipInput) (fetchEnv : String → Option Nat) : List ZipEntry :=
  rs.filterMap (fun r =>
    match r.blur with
    | none => none
    | some b =>
      match b.blurred_image_path with
      | none => none
      | some p => (fetchEnv (lastSeg p)).map (fun bs => ⟨"blurred/" ++ lastSeg p, bs⟩))

/-- The detection_results.json manifest: one entry per result, in
order, with filename read from result.originalFile.name.  This list is
only built in the branch of downloadZip where every originalFile is
present (otherwise the originals loop has already thrown), so the
default never fires there. -/
def zipManifest (rs : List ZipInput) : List ManifestEntry :=
  rs.map (fun r => ⟨((r.originalFile).map (fun f => f.name)).getD "", r.detection, r.blur⟩)

/-- downloadZip: no archive for an empty results array (early return)
and no archive when some record lacks the originalFile property (the
result.originalFile.arrayBuffer() read throws and the outer catch
aborts the zip); otherwise the archive with the two folders and the
manifest. -/
def downloadZip (rs : List ZipInput) (fetchEnv : String → Option Nat) :
    Option ZipArchive :=
  if rs.isEmpty then none
  else if rs.any (fun r => r.originalFile.isNone) then none
  else some ⟨zipOriginals rs, zipBlurred rs fetchEnv, zipManifest rs⟩

/-- downloadZip produces the archive whenever the results are nonempty
and every record carries the originalFile property. -/
theorem downloadZip_eq_some (rs : List ZipInput) (fetchEnv : String → Option Nat)
    (hne : rs ≠ []) (href : ∀ r ∈ rs, r.originalFile.isSome = true) :
    downloadZip rs fetchEnv = some ⟨zipOriginals rs, zipBlurred rs fetchEnv, zipManifest rs⟩ := by
  have hemp : rs.isEmpty = false := by
    cases rs with
    | nil => exact absurd rfl hne
    | cons r rtl => rfl
  have hany : rs.any (fun r => r.originalFile.isNone) = false := by
    rw [List.any_eq_false]
    intro r hr
    have := href r hr
    simp [Option.isNone_iff_eq_none]
    exact Option.isSome_iff_exists.mp this |>.elim (fun f hf => by simp [hf])
  simp [downloadZip, hemp, hany]

/-- part_002's downloadZip never produces an archive on its own
nonempty results: its records have no originalFile property, so the
first originals iteration throws. -/
theorem downloadZip_part002_none (rs : List FolderRecord) (fetchEnv : String → Option Nat)
    (hne : rs ≠ []) :
    downloadZip (part002ZipInputs rs) fetchEnv = none := by
  cases rs with
  | nil => exact absurd rfl hne
  | cons r rtl =>
    have hany : (part002ZipInputs (r :: rtl)).any (fun x => x.originalFile.isNone) = true := by
      rw [part002ZipInputs, List.map_cons, List.any_cons]
      rfl
    have hemp : (part002ZipInputs (r :: rtl)).isEmpty = false := rfl
    simp [downloadZip, hemp, hany]

/-- The index range of a file list, mapped through name lookup, is the
list of file names. -/
theorem map_range_names (files : List JsFile) :
    (List.range files.length).map (fun i => ((files[i]?).map JsFile.name).getD "") =
      files.map JsFile.name := by
  apply List.ext_getElem?
  intro n
  by_cases hn : n < files.length
  · rw [List.getElem?_map, List.getElem?_range hn, List.getElem?_map,
      List.getElem?_eq_getElem hn]
    simp [List.getElem?_eq_getElem hn]
  · rw [List.getElem?_map, List.getElem?_map,
      List.getElem?_eq_none (by simpa using hn),
      List.getElem?_eq_none (by simp [Nat.le_of_not_lt hn])]
    rfl

/-- Where the sequential step keeps a record, the record's filename is
the name of the file at that index. -/
theorem seqStep_filename (files : List JsFile) (denv : Nat → ApiResult Nat)
    (benv : Nat → ApiResult BlurData) :
    ∀ (i : Nat) (r : FolderRecord), seqStep files denv benv i = some r →
      r.filename = ((files[i]?).map JsFile.name).getD "" := by
  intro i r hstep
  unfold seqStep at hstep
  cases hfi : files[i]? with
  | none => rw [hfi] at hstep; simp at hstep
  | some f =>
    rw [hfi] at hstep
    cases hd : denv i <;> cases hb : benv i <;> rw [hd, hb] at hstep <;> simp at hstep
    subst hstep
    rfl

/-- The sequential loop presents its records in original-input-index
order: the filename sequence is a sublist of the input name sequence. -/
theorem processSeq_names_sublist (files : List JsFile) (denv : Nat → ApiResult Nat)
    (benv : Nat → ApiResult BlurData) :
    ((processSeq files denv benv).1.map (fun r => r.filename)).Sublist
      (files.map (fun f => f.name)) := by
  rw [processSeq_records]
  have hsub := map_filterMap_sublist (seqStep files denv benv)
    (fun i => ((files[i]?).map JsFile.name).getD "") (fun r => r.filename)
    (seqStep_filename files denv benv) (List.range files.length)
  rw [map_range_names] at hsub
  exact hsub

/- ---------------------------------------------------------------------
Concrete fixtures used by witnesses and counterexamples.
--------------------------------------------------------------------- -/

/-- A first concrete input image. -/
def fileA : JsFile := ⟨"a", 10⟩

/-- A second concrete input image. -/
def fileB : JsFile := ⟨"b", 20⟩

/-- A concrete blur payload without a blurred_image_path. -/
def blur0 : BlurData := ⟨0, none⟩

/-- A detect environment that fails on the first file and succeeds on
the others. -/
def denvFail0 : Nat → ApiResult Nat :=
  fun i => if i = 0 then ApiResult.err "detect failed" else ApiResult.ok 7

/-- A detect environment in which every call succeeds. -/
def denvOk : Nat → ApiResult Nat := fun _ => ApiResult.ok 7

/-- A blur environment in which every call succeeds. -/
def benvOk : Nat → ApiResult BlurData := fun _ => ApiResult.ok blur0

/-- A fetch environment in which every artifact download fails. -/
def fetchNone : String → Option Nat := fun _ => none

/-- A concrete options object with blur enabled. -/
def optsAll : BatchOptions := ⟨true, true, true⟩

/-- A concrete failed downloadImage response. -/
def failRes : DlResponse := ⟨false, 0, "fail"⟩

/-- A concrete successful downloadImage response. -/
def okRes : DlResponse := ⟨true, 5, ""⟩

/- ---------------------------------------------------------------------
Claim C1
--------------------------------------------------------------------- -/

/-- Claim C1, counterexample: a batch of one file run through the
FolderProcessor sequential loop whose detect call fails ends with zero
result records, not one record per input index — the failed item has no
terminal record in the results collection. -/
theorem c1_seq_drops_failed_item :
    ¬ ((processSeq [fileA] denvFail0 benvOk).1.length = [fileA].length) := by
  decide

/-- Claim C1, amended: apiService.processBatch yields exactly N item
records, one per input index 0..N-1 in order (record k carries the name
of file k), each in exactly one terminal state whose success flag is
that of its detect call; the FolderProcessor sequential and fallback
loops instead record only the items whose detect and blur calls both
succeed, so their final collection has exactly succeededCount ≤ N
records and failed items leave no record. -/
theorem processBatch_data_getElem? (files : List JsFile) (opts : BatchOptions)
    (denv : Nat → ApiResult Nat) (benv : Nat → ApiResult BlurData) (k : Nat) :
    (processBatch files opts denv benv).data[k]? =
      (files[k]?).map (fun f => processBatchItem opts denv benv k f) := by
  have h := processBatchGo_get? opts denv benv files 0 k
  rw [List.get?_eq_getElem?, List.get?_eq_getElem?] at h
  simpa using h

theorem c1_batch_record_completeness :
    ∀ (files : List JsFile) (opts : BatchOptions) (denv : Nat → ApiResult Nat)
      (benv : Nat → ApiResult BlurData),
      (processBatch files opts denv benv).data.length = files.length ∧
      (∀ (k : Nat), ((processBatch files opts denv benv).data[k]?).map
        (fun (r : BatchItemResult) => r.filename) =
        (files[k]?).map (fun (f : JsFile) => f.name)) ∧
      (∀ (k : Nat), ((processBatch files opts denv benv).data[k]?).map
        (fun (r : BatchItemResult) => r.success) =
        (files[k]?).map (fun (_ : JsFile) => (denv k).isOk)) ∧
      (processSeq files denv benv).1.length = succeededCount files denv benv ∧
      succeededCount files denv benv ≤ files.length := by
  intro files opts denv benv
  refine ⟨processBatchGo_length opts denv benv files 0, ?_, ?_,
    processSeq_length files denv benv, ?_⟩
  · intro k
    rw [processBatch_data_getElem?, Option.map_map]
    cases files[k]? with
    | none => rfl
    | some f => simp [processBatchItem_filename]
  · intro k
    rw [processBatch_data_getElem?, Option.map_map]
    cases files[k]? with
    | none => rfl
    | some f => simp [processBatchItem_success]
  · calc succeededCount files denv benv
        ≤ (List.range files.length).length := List.length_filter_le _ _
      _ = files.length := List.length_range files.length

/- ---------------------------------------------------------------------
Claim C2
--------------------------------------------------------------------- -/

/-- Claim C2: when the initiating processBatchParallel call fails (so no
item-level outcome has been recorded), processFolder falls back to the
sequential loop restarted at index 0 — the first unprocessed item — and,
assuming every sequential detect and blur call succeeds, all N selected
files are settled one at a time: the final collection has exactly one
record per input index, in order.  Since no outcome was recorded under
the parallel attempt, the fallback reprocesses nothing that was already
recorded. -/
theorem c2_parallel_failure_sequential_fallback :
    ∀ (files : List JsFile) (msg : String) (denv : Nat → ApiResult Nat)
      (benv : Nat → ApiResult BlurData),
      (∀ i, (denv i).isOk = true ∧ (benv i).isOk = true) →
      processFolderPar files (ApiResult.err msg) denv benv = processSeq files denv benv ∧
      (processFolderPar files (ApiResult.err msg) denv benv).1.length = files.length ∧
      (∀ (k : Nat), ((processFolderPar files (ApiResult.err msg) denv benv).1[k]?).map
          (fun (r : FolderRecord) => r.filename) =
          (files[k]?).map (fun (f : JsFile) => f.name)) := by
  intro files msg denv benv hall
  have hcount : succeededCount files denv benv = files.length := by
    unfold succeededCount
    rw [List.filter_eq_self.mpr (fun i _ => by
      rw [(hall i).1, (hall i).2]; rfl)]
    exact List.length_range files.length
  have hlen : (processSeq files denv benv).1.length = files.length := by
    rw [processSeq_length, hcount]
  have hnames : (processSeq files denv benv).1.map (fun r => r.filename) =
      files.map (fun f => f.name) := by
    refine (processSeq_names_sublist files denv benv).eq_of_length ?_
    simp [hlen]
  refine ⟨rfl, hlen, ?_⟩
  intro k
  have hmk : ((processSeq files denv benv).1.map (fun r => r.filename))[k]? =
      (files.map (fun f => f.name))[k]? := by rw [hnames]
  rw [List.getElem?_map, List.getElem?_map] at hmk
  exact hmk

/-- Claim C2, witness: two concrete files, a failing parallel call and
all-succeeding sequential environments settle both files. -/
theorem c2_parallel_failure_sequential_fallback_witness :
    (∀ i, (denvOk i).isOk = true ∧ (benvOk i).isOk = true) ∧
    (processFolderPar [fileA, fileB] (ApiResult.err "boom") denvOk benvOk).1.length = 2 :=
  ⟨fun _ => ⟨rfl, rfl⟩,
    (c2_parallel_failure_sequential_fallback [fileA, fileB] "boom" denvOk benvOk
      (fun _ => ⟨rfl, rfl⟩)).2.1⟩

/- ---------------------------------------------------------------------
Claim C9
--------------------------------------------------------------------- -/

/-- Claim C9: processBatch resolves with top-level success = true for
every input, even when every per-item entry is marked success = false
(as when every detect call fails); at the top level an all-failed batch
is indistinguishable from an all-succeeded one. -/
theorem c9_top_level_always_success :
    ∀ (files : List JsFile) (opts : BatchOptions) (denv : Nat → ApiResult Nat)
      (benv : Nat → ApiResult BlurData) (e : String),
      (processBatch files opts denv benv).success = true ∧
      (processBatch files opts (fun _ => ApiResult.err e) benv).data.all
        (fun r => !r.success) = true ∧
      (processBatch files opts (fun _ => ApiResult.err e) benv).success =
        (processBatch files opts denv benv).success := by
  intro files opts denv benv e
  exact ⟨rfl, processBatchGo_all_failed opts e benv files 0, rfl⟩

/- ---------------------------------------------------------------------
Claim C10
--------------------------------------------------------------------- -/

/-- Claim C10: for every maxRetries value below 1 the retry loop body
never runs — no fetch attempt is made, no delay is slept, and the
function returns undefined (result none) rather than a response object
carrying a success field. -/
theorem c10_zero_retries_undefined :
    ∀ (env : Nat → DlOutcome) (m : Nat), m < 1 →
      downloadWithRetry env m = ⟨0, [], none⟩ := by
  intro env m h
  have hm : m = 0 := by omega
  subst hm
  rfl

/-- Claim C10, witness: at maxRetries = 0 there are zero attempts and an
undefined result. -/
theorem c10_zero_retries_undefined_witness :
    (0 : Nat) < 1 ∧
    downloadWithRetry (env3 (DlOutcome.res okRes) (DlOutcome.res okRes)
      (DlOutcome.res okRes)) 0 = ⟨0, [], none⟩ :=
  ⟨by decide, c10_zero_retries_undefined _ 0 (by decide)⟩

/- ---------------------------------------------------------------------
Claim C3
--------------------------------------------------------------------- -/

/-- Claim C3, counterexample: for a fetch that fails twice and then
succeeds under maxRetries = 3, the observed delays are 2000 ms before
attempt 2 and 4000 ms before attempt 3 — the code sleeps
2 ^ (k - 1) seconds before attempt k, not the 2 ^ k seconds
(4000 ms, 8000 ms) the claim states. -/
theorem c3_backoff_exponent_counterexample :
    (downloadWithRetry (env3 (DlOutcome.res failRes) (DlOutcome.res failRes)
      (DlOutcome.res okRes)) 3).delays = [2000, 4000] ∧
    ¬ ((downloadWithRetry (env3 (DlOutcome.res failRes) (DlOutcome.res failRes)
      (DlOutcome.res okRes)) 3).delays = [2 ^ 2 * 1000, 2 ^ 3 * 1000]) := by
  constructor
  · rfl
  · decide

/-- Claim C3, amended: with the default maxRetries = 3 the loop makes
between 1 and 3 attempts, the first attempt is immediate and the delay
before attempt k (k ≥ 2) is 2 ^ (k - 1) seconds — not 2 ^ k; a first
successful attempt is returned at once with no delay; and when the
first two attempts fail, the run makes exactly 3 attempts with delays
of 2000 ms and 4000 ms and returns the third response untouched
(whether it succeeded or is the last observed failure). -/
theorem c3_retry_backoff_policy :
    ∀ (env : Nat → DlOutcome) (o2 o3 : DlOutcome) (r1 r2 r3 : DlResponse),
      (1 ≤ (downloadWithRetry env 3).attempts ∧
       (downloadWithRetry env 3).attempts ≤ 3 ∧
       (downloadWithRetry env 3).delays =
         (List.range' 1 ((downloadWithRetry env 3).attempts - 1)).map
           (fun j => 2 ^ j * 1000)) ∧
      (r1.success = true →
        downloadWithRetry (env3 (DlOutcome.res r1) o2 o3) 3 = ⟨1, [], some r1⟩) ∧
      (r1.success = false → r2.success = false →
        downloadWithRetry (env3 (DlOutcome.res r1) (DlOutcome.res r2)
          (DlOutcome.res r3)) 3 = ⟨3, [2000, 4000], some r3⟩) := by
  intro env o2 o3 r1 r2 r3
  refine ⟨?_, ?_, ?_⟩
  · have h := downloadWithRetryGo_spec env 3 3 1 (by omega) (by omega)
    exact ⟨h.1, h.2.1, h.2.2.1⟩
  · intro h1
    obtain ⟨s, d, e⟩ := r1
    cases h1
    rfl
  · intro h1 h2
    obtain ⟨s1, d1, e1⟩ := r1
    obtain ⟨s2, d2, e2⟩ := r2
    obtain ⟨s3, d3, e3⟩ := r3
    cases h1
    cases h2
    cases s3 <;> rfl

/-- Claim C3, witness: the fails-twice-then-succeeds scenario at
concrete responses makes 3 attempts, waits 2000 ms and 4000 ms, and
returns the successful third response. -/
theorem c3_retry_backoff_policy_witness :
    failRes.success = false ∧
    downloadWithRetry (env3 (DlOutcome.res failRes) (DlOutcome.res failRes)
      (DlOutcome.res okRes)) 3 = ⟨3, [2000, 4000], some okRes⟩ :=
  ⟨rfl, (c3_retry_backoff_policy (env3 (DlOutcome.res failRes) (DlOutcome.res failRes)
    (DlOutcome.res okRes)) (DlOutcome.res failRes) (DlOutcome.res okRes)
    failRes failRes okRes).2.2 rfl rfl⟩

/- ---------------------------------------------------------------------
Claim C4
--------------------------------------------------------------------- -/

/-- A concrete successful parallel response for two files. -/
def parOk2 : List ParallelItem := [⟨"a", 1, blur0⟩, ⟨"b", 2, blur0⟩]

/-- Claim C4, counterexample: a successful parallel run over two files
invokes the progress callback once, not once per settled item — an
observer of the progress stream sees 1 update for 2 items and so can
distinguish the parallel strategy from the sequential one. -/
theorem c4_parallel_single_progress_update :
    ¬ ((processFolderPar [fileA, fileB] (ApiResult.ok parOk2) denvOk benvOk).2.length =
      [fileA, fileB].length) := by
  decide

/-- Claim C4, amended: the sequential loop reports progress once per
item, but with (i + 1, N) emitted before item i settles, not after; the
successful parallel path reports progress exactly once, with (N, N),
after the whole batch response arrives — so progress streams do
distinguish the strategies. -/
theorem c4_progress_reporting :
    ∀ (files : List JsFile) (denv : Nat → ApiResult Nat)
      (benv : Nat → ApiResult BlurData) (rs : List ParallelItem),
      (processSeq files denv benv).2 =
        (List.range files.length).flatMap (fun k =>
          [ProgressEvent.progress (k + 1) files.length,
           ProgressEvent.settle k ((denv k).isOk && (benv k).isOk)]) ∧
      (processFolderPar files (ApiResult.ok rs) denv benv).2 =
        [ProgressEvent.progress files.length files.length] := by
  intro files denv benv rs
  constructor
  · rw [processSeq, processSeqGo_events files denv benv files.length 0 (by omega),
      List.range_eq_range']
  · rfl

/- ---------------------------------------------------------------------
Claim C5
--------------------------------------------------------------------- -/

/-- A concrete part_002-style record: the file is stored under the
property file and the blur payload under blurred, exactly as that
component's processFolder pushes it. -/
def recP : FolderRecord := ⟨"a", some fileA, 1, blur0⟩

/-- Claim C5, counterexample: in the detection-app copy, a job of N = 2
items with one failed item produces an archive whose manifest lists
only the succeeded item — not all N items — because the failed item was
never recorded in results; and the part_002 copy produces no archive at
all even for a nonempty results array, because it reads
result.originalFile, a property its own processFolder records never
set. -/
theorem c5_packaging_counterexample :
    ¬ (((downloadZip (appZipInputs (processSeq [fileA, fileB] denvFail0 benvOk).1)
      fetchNone).map (fun z => z.manifest.length)) = some [fileA, fileB].length) ∧
    downloadZip (part002ZipInputs [recP]) fetchNone = none := by
  constructor
  · decide
  · decide

/-- Claim C5, amended: downloadZip places original bytes under
originals/ and artifact bytes under blurred/ (there is no processed/
folder).  In the detection-app copy — whose processFolder records carry
the originalFile and blur properties downloadZip reads — the manifest
lists, in order, exactly the records of the results array, which are
the K succeeded items only, with one originals entry per record,
blurred entries only where the fetched artifact arrived, and no error
recorded for the N - K failed ones.  The part_002 copy reads
originalFile and blur properties that its own processFolder records
never set (their fields are named file and blurred), so on every
nonempty results array it throws and produces no archive at all. -/
theorem c5_zip_packaging :
    ∀ (files : List JsFile) (denv : Nat → ApiResult Nat)
      (benv : Nat → ApiResult BlurData) (fetchEnv : String → Option Nat),
      ((processSeq files denv benv).1 ≠ [] →
        ∃ z, downloadZip (appZipInputs (processSeq files denv benv).1) fetchEnv = some z ∧
          z.manifest.length = succeededCount files denv benv ∧
          z.manifest.map (fun e => e.filename) =
            (processSeq files denv benv).1.map (fun r => r.filename) ∧
          z.originals.length = (processSeq files denv benv).1.length ∧
          (∀ e ∈ z.originals, ∃ s, e.path = "originals/" ++ s) ∧
          (∀ e ∈ z.blurred, ∃ s, e.path = "blurred/" ++ s)) ∧
      (∀ rs : List FolderRecord, rs ≠ [] →
        downloadZip (part002ZipInputs rs) fetchEnv = none) := by
  intro files denv benv fetchEnv
  constructor
  · intro hne
    have hinput : ∀ x ∈ appZipInputs (processSeq files denv benv).1,
        x.originalFile.isSome = true := by
      intro x hx
      obtain ⟨r, hr, hmap⟩ := List.mem_map.mp hx
      obtain ⟨f, hf, _⟩ := processSeq_record_shape files denv benv r hr
      rw [← hmap, hf]
      rfl
    have hne2 : appZipInputs (processSeq files denv benv).1 ≠ [] := by
      rw [appZipInputs]
      simpa using hne
    refine ⟨_, downloadZip_eq_some _ fetchEnv hne2 hinput, ?_, ?_, ?_, ?_, ?_⟩
    · rw [zipManifest, List.length_map, appZipInputs, List.length_map, processSeq_length]
    · rw [zipManifest, appZipInputs, List.map_map, List.map_map]
      refine List.map_congr_left (fun r hr => ?_)
      obtain ⟨f, hf, hn⟩ := processSeq_record_shape files denv benv r hr
      simp [Function.comp, hf, hn]
    · rw [zipOriginals, length_filterMap_eq_countP]
      calc (appZipInputs (processSeq files denv benv).1).countP
            (fun r => ((r.originalFile).map
              (fun f => (⟨"originals/" ++ f.name, f.bytes⟩ : ZipEntry))).isSome)
          = (appZipInputs (processSeq files denv benv).1).countP (fun _ => true) := by
            refine countP_congr_mem _ _ _ (fun x hx => ?_)
            rw [Option.isSome_map']
            exact hinput x hx
        _ = (appZipInputs (processSeq files denv benv).1).length := by
            rw [List.countP_true]
        _ = (processSeq files denv benv).1.length := by
            rw [appZipInputs, List.length_map]
    · intro e he
      rw [zipOriginals] at he
      obtain ⟨x, _, hmap⟩ := List.mem_filterMap.mp he
      obtain ⟨f, _, hf⟩ := Option.map_eq_some'.mp hmap
      exact ⟨f.name, by rw [← hf]⟩
    · intro e he
      rw [zipBlurred] at he
      obtain ⟨x, _, hmap⟩ := List.mem_filterMap.mp he
      split at hmap
      · simp at hmap
      · split at hmap
        · simp at hmap
        · obtain ⟨bs, _, hbs⟩ := Option.map_eq_some'.mp hmap
          exact ⟨_, by rw [← hbs]⟩
  · intro rs hne
    exact downloadZip_part002_none rs fetchEnv hne

/-- Claim C5, witness: the concrete one-succeeded one-failed job does
produce an archive through the detection-app copy, with its manifest
listing exactly the succeeded item, while the part_002 copy produces no
archive on a concrete nonempty results array. -/
theorem c5_zip_packaging_witness :
    ((processSeq [fileA, fileB] denvFail0 benvOk).1 ≠ [] ∧
      ([recP] : List FolderRecord) ≠ []) ∧
    (∃ z, downloadZip (appZipInputs (processSeq [fileA, fileB] denvFail0 benvOk).1)
        fetchNone = some z ∧
      z.manifest.length = succeededCount [fileA, fileB] denvFail0 benvOk) ∧
    downloadZip (part002ZipInputs [recP]) fetchNone = none := by
  have h := c5_zip_packaging [fileA, fileB] denvFail0 benvOk fetchNone
  refine ⟨⟨by decide, by decide⟩, ?_, h.2 [recP] (by decide)⟩
  obtain ⟨z, hz, hlen, _⟩ := h.1 (by decide)
  exact ⟨z, hz, hlen⟩

/- ---------------------------------------------------------------------
Claim C6
--------------------------------------------------------------------- -/

/-- A concrete parallel response whose arrival order is the reverse of
the input order. -/
def parRev2 : List ParallelItem := [⟨"b", 2, blur0⟩, ⟨"a", 1, blur0⟩]

/-- Claim C6, counterexample: when the parallel response delivers its
outcomes in reverse arrival order, the presented results follow the
response's order, not ascending original-input-index order. -/
theorem c6_parallel_presentation_follows_arrival :
    ¬ ((processFolderPar [fileA, fileB] (ApiResult.ok parRev2) denvOk benvOk).1.map
      (fun r => r.filename) = [fileA, fileB].map (fun f => f.name)) := by
  decide

/-- Claim C6, amended: the sequential (and fallback) results are
presented in original-input-index order — their filename sequence is a
sublist of the input name sequence — but the parallel path presents
results exactly in the response array's arrival order, with no re-sort
by original index. -/
theorem c6_presentation_ordering :
    ∀ (files : List JsFile) (denv : Nat → ApiResult Nat)
      (benv : Nat → ApiResult BlurData) (rs : List ParallelItem) (msg : String),
      ((processSeq files denv benv).1.map (fun r => r.filename)).Sublist
        (files.map (fun f => f.name)) ∧
      (processFolderPar files (ApiResult.ok rs) denv benv).1.map (fun r => r.filename) =
        rs.map (fun r => r.filename) ∧
      ((processFolderPar files (ApiResult.err msg) denv benv).1.map
        (fun r => r.filename)).Sublist (files.map (fun f => f.name)) := by
  intro files denv benv rs msg
  refine ⟨processSeq_names_sublist files denv benv, ?_, ?_⟩
  · show (rs.map (convertParallel files)).map (fun r => r.filename) =
      rs.map (fun r => r.filename)
    rw [List.map_map]
    rfl
  · exact processSeq_names_sublist files denv benv

/- ---------------------------------------------------------------------
Claim C7
--------------------------------------------------------------------- -/

/-- Claim C7, counterexample: in the FolderProcessor loop a failed
first item leaves the batch running (the second item is processed and
recorded) but the failure itself is only logged — the results hold no
record at all for the failed item, so item-level errors are not
recorded. -/
theorem c7_folder_loop_drops_error_record :
    (processSeq [fileA, fileB] denvFail0 benvOk).1.map (fun r => r.filename) =
      [fileB.name] ∧
    ¬ ((processSeq [fileA, fileB] denvFail0 benvOk).1.any
      (fun r => decide (r.filename = fileA.name)) = true) := by
  constructor
  · rfl
  · decide

/-- Claim C7, amended: a single item's failed detect (or blur) call
never aborts the batch.  In apiService.processBatch every item still
gets its own entry whose success flag reflects only that item's detect
call and whose error field records that item's error message; in the
FolderProcessor loops every item whose own calls succeed is still
recorded even when other items fail, but the failed items themselves
are only logged and leave no record. -/
theorem c7_item_failure_isolation :
    ∀ (files : List JsFile) (opts : BatchOptions) (denv : Nat → ApiResult Nat)
      (benv : Nat → ApiResult BlurData),
      (processBatch files opts denv benv).data.length = files.length ∧
      (∀ (k : Nat), ((processBatch files opts denv benv).data[k]?).map
        (fun (r : BatchItemResult) => r.error) =
        (files[k]?).map (fun (_ : JsFile) =>
          (match denv k with | .ok _ => none | .err e => some e : Option String))) ∧
      (∀ (j : Nat) (f : JsFile), files[j]? = some f →
        (denv j).isOk = true → (benv j).isOk = true →
        (processSeq files denv benv).1.any
          (fun r => decide (r.filename = f.name)) = true) := by
  intro files opts denv benv
  refine ⟨processBatchGo_length opts denv benv files 0, ?_, ?_⟩
  · intro k
    rw [processBatch_data_getElem?, Option.map_map]
    cases files[k]? with
    | none => rfl
    | some f => simp [processBatchItem_error]
  · intro j f hj hd hb
    obtain ⟨d, hdeq⟩ : ∃ d, denv j = ApiResult.ok d := by
      cases hdm : denv j with
      | ok d => exact ⟨d, rfl⟩
      | err m => rw [hdm] at hd; exact absurd hd (by simp [ApiResult.isOk])
    obtain ⟨b, hbeq⟩ : ∃ b, benv j = ApiResult.ok b := by
      cases hbm : benv j with
      | ok b => exact ⟨b, rfl⟩
      | err m => rw [hbm] at hb; exact absurd hb (by simp [ApiResult.isOk])
    have hstep : seqStep files denv benv j = some ⟨f.name, some f, d, b⟩ := by
      unfold seqStep
      rw [hj, hdeq, hbeq]
    have hjlt : j < files.length := (List.getElem?_eq_some_iff.mp hj).1
    have hmem : (⟨f.name, some f, d, b⟩ : FolderRecord) ∈ (processSeq files denv benv).1 := by
      rw [processSeq_records]
      exact List.mem_filterMap.mpr ⟨j, List.mem_range.mpr hjlt, hstep⟩
    exact List.any_eq_true.mpr ⟨_, hmem, by simp⟩

/-- Claim C7, witness: with the first item failing, the second concrete
item is still processed and appears in the results. -/
theorem c7_item_failure_isolation_witness :
    ([fileA, fileB][1]? = some fileB ∧ (denvFail0 1).isOk = true ∧
      (benvOk 1).isOk = true) ∧
    (processSeq [fileA, fileB] denvFail0 benvOk).1.any
      (fun r => decide (r.filename = fileB.name)) = true := by
  refine ⟨⟨rfl, rfl, rfl⟩, ?_⟩
  exact (c7_item_failure_isolation [fileA, fileB] optsAll denvFail0 benvOk).2.2
    1 fileB rfl rfl rfl

/- ---------------------------------------------------------------------
Claim C8
--------------------------------------------------------------------- -/

/-- A first concrete outcome recorded for an index. -/
def recA1 : FolderRecord := ⟨"a", none, 1, blur0⟩

/-- A second, later outcome recorded for the same index. -/
def recA2 : FolderRecord := ⟨"a", none, 2, blur0⟩

/-- Claim C8, counterexample: recording an outcome twice for the same
index leaves two entries in the aggregated results, not exactly one. -/
theorem c8_double_record_not_idempotent :
    ¬ ((recordOutcome (recordOutcome [] recA1) recA2).length = 1) := by
  decide

/-- Claim C8, amended: the aggregation used by the processFolder loops
is an unkeyed append (Array.push): recording a second outcome for the
same index appends it after the first, so the collection holds both
outcomes — the count of entries for that index grows by two, and
nothing overwrites or deduplicates per index. -/
theorem c8_record_is_append :
    ∀ (acc : List FolderRecord) (r1 r2 : FolderRecord), r1.filename = r2.filename →
      recordOutcome (recordOutcome acc r1) r2 = acc ++ [r1, r2] ∧
      (recordOutcome (recordOutcome acc r1) r2).countP
        (fun r => decide (r.filename = r2.filename)) =
        acc.countP (fun r => decide (r.filename = r2.filename)) + 2 := by
  intro acc r1 r2 h
  constructor
  · simp [recordOutcome]
  · simp [recordOutcome, List.countP_append, List.countP_cons, h]

/-- Claim C8, witness: two concrete outcomes for the same index end up
as two entries. -/
theorem c8_record_is_append_witness :
    recA1.filename = recA2.filename ∧
    (recordOutcome (recordOutcome [] recA1) recA2).countP
      (fun r => decide (r.filename = recA2.filename)) =
      ([] : List FolderRecord).countP (fun r => decide (r.filename = recA2.filename)) + 2 :=
  ⟨rfl, (c8_record_is_append [] recA1 recA2 rfl).2⟩

/-- One step of the result accumulation: record the outcome of index i
when its iteration pushed one. -/
def recordStep (files : List JsFile) (denv : Nat → ApiResult Nat)
    (benv : Nat → ApiResult BlurData) (acc : List FolderRecord) (i : Nat) :
    List FolderRecord :=
  match seqStep files denv benv i with
  | some r => recordOutcome acc r
  | none => acc

/-- Folding the record step appends the kept outcomes. -/
theorem foldl_recordStep (files : List JsFile) (denv : Nat → ApiResult Nat)
    (benv : Nat → ApiResult BlurData) :
    ∀ (l : List Nat) (acc : List FolderRecord),
      l.foldl (recordStep files denv benv) acc =
        acc ++ l.filterMap (seqStep files denv benv) := by
  intro l
  induction l with
  | nil => intro acc; simp
  | cons a l ih =>
    intro acc
    rw [List.foldl_cons, List.filterMap_cons, recordStep]
    cases hfa : seqStep files denv benv a <;> simp [recordOutcome, hfa, ih]

/-- The sequential loop's result accumulation is literally a fold of
recordOutcome over the per-index outcomes, tying recordOutcome to the
loops it is taken from. -/
theorem processSeq_records_eq_fold (files : List JsFile) (denv : Nat → ApiResult Nat)
    (benv : Nat → ApiResult BlurData) :
    (processSeq files denv benv).1 =
      (List.range files.length).foldl (recordStep files denv benv) [] := by
  rw [processSeq_records, foldl_recordStep]
  rfl

end IdenHide
